import Mathlib

/-!
Shallow embedding of `tensorflow/python/ops/while_v2.py`: the forward While-loop
assembler (`while_loop`), the accumulation manager (`_get_intermediates`,
`_get_accumulator`), the gradient assembler (`_WhileGrad`, `_create_grad_func`,
`grad_cond`) and the gradient capture resolver
(`_WhileBodyGradFuncGraph._capture_helper`), together with theorems checking the
specification's statements about them.

Python machine details are modelled as follows: scalar loop counters (float32
constants stepped by `+ 1`) are embedded as `Nat` (the arithmetic performed on
them is exact at every reachable value); graph tensors are identified by a
numeric id plus the id of the graph that owns them and a dtype; fallible Python
code (assertions, raised `ValueError`s, out-of-range list indexing) is embedded
in `Except String`.
-/

namespace WhileV2

/-- Tensor dtypes distinguished by the source: `dtypes.resource` (resource
handles), `variant` (TensorList accumulators) and `float32` (ordinary trainable
data). -/
inductive DType where
  | float32
  | resource
  | variant
deriving DecidableEq, Repr

/-- A graph tensor: a unique id, the id of the graph it lives in (Python's
`tensor.graph`), and its dtype. -/
structure Tensor where
  tid : Nat
  graphId : Nat
  dtype : DType
deriving DecidableEq, Repr

/-- A graph operation: its type string (Python `op.type`), its input tensors
(`op.inputs`) and output tensors (`op.outputs`). -/
structure Op where
  opType : String
  opInputs : List Tensor
  opOutputs : List Tensor
deriving DecidableEq, Repr

/-- A `FuncGraph`: operations, ordered input placeholders, ordered outputs, the
graph's id, and its capture map as an ordered (external tensor, placeholder)
association list (Python's `graph.captures` dict). -/
structure FuncGraph where
  gid : Nat
  ops : List Op
  inputs : List Tensor
  outputs : List Tensor
  captures : List (Tensor × Tensor)
deriving DecidableEq, Repr

/-- The operation producing a tensor (Python `tensor.op`); `none` if the tensor
is not produced inside the graph being modelled. -/
def producer (g : FuncGraph) (t : Tensor) : Option Op :=
  g.ops.find? (fun o => t ∈ o.opOutputs)

/-- `tensor.op.type`, or the empty string when the producing op is outside the
modelled graph (in Python every tensor has an op). -/
def opTypeOf (g : FuncGraph) (t : Tensor) : String :=
  match producer g t with
  | some o => o.opType
  | none => ""

/-- The operations consuming a tensor (Python `tensor.consumers()`). -/
def consumers (g : FuncGraph) (t : Tensor) : List Op :=
  g.ops.filter (fun o => t ∈ o.opInputs)

/-- First index of a tensor in a list (Python `list.index`; call sites
establish membership before calling, as the Python code does). -/
def indexOfT : List Tensor → Tensor → Nat
  | [], _ => 0
  | x :: xs, t => if x = t then 0 else indexOfT xs t + 1

/-- Association-list lookup used to model Python dict access on tensors. -/
def lookupT : List (Tensor × Tensor) → Tensor → Option Tensor
  | [], _ => none
  | (k, v) :: rest, t => if k = t then some v else lookupT rest t

/-- Python dict assignment `d[k] = v`: replace the entry in place when the key
is present, append otherwise. -/
def updateT : List (Tensor × Tensor) → Tensor → Tensor → List (Tensor × Tensor)
  | [], k, v => [(k, v)]
  | (a, b) :: rest, k, v =>
    if a = k then (k, v) :: rest else (a, b) :: updateT rest k v

/-! ### Capture reconciliation between cond and body (while_loop, lines 177-183)

After building both sub-programs, `while_loop` walks the body graph's external
captures and captures each of them in the cond graph as well; a tensor that the
cond graph has already captured trips the assertion. -/

/-- The assertion message of while_v2.py lines 179-182. -/
def sharedCaptureMsg : String :=
  "Looks like both cond and body are capturing the same tensor. This is not supported yet. For now consider passing this as a loop variable."

/-- while_v2.py lines 177-183: fold the body graph's external captures into the
cond graph's capture list, failing if the cond graph already captured one of
them. The first argument is the list of external tensors the cond graph has
captured so far. -/
def captureBodyCaptures : List Tensor → List Tensor → Except String (List Tensor)
  | condCaptured, [] => .ok condCaptured
  | condCaptured, b :: bs =>
    if b ∈ condCaptured then .error sharedCaptureMsg
    else captureBodyCaptures (condCaptured ++ [b]) bs

/-! ### Shape-invariant validation (`_check_shapes_compat`, lines 685-693) -/

/-- A tensor dimension: `none` is an unknown/wildcard dimension. -/
abbrev Dim := Option Nat

/-- A tensor shape: `none` is an unknown rank. -/
abbrev TShape := Option (List Dim)

/-- Modelled from the spec: `control_flow_ops._ShapeLessThanOrEqual` is a
collaborator outside src. Per the spec, the output shape (first argument) is
compatible with the invariant shape (second argument) when the invariant has
unknown rank, or both ranks agree and every concrete invariant dimension is
matched exactly, wildcard invariant dimensions being unconstrained. -/
def shapeLessThanOrEqual : TShape → TShape → Bool
  | _, none => true
  | none, some _ => false
  | some ds1, some ds2 =>
    ds1.length == ds2.length &&
      (List.zip ds1 ds2).all fun p =>
        match p.2 with
        | none => true
        | some v => p.1 == some v

/-- A shaped, named loop value as seen by `_check_shapes_compat`. -/
structure STensor where
  sname : String
  shape : TShape
deriving DecidableEq, Repr

/-- The data carried by the `ValueError` of `_check_shapes_compat`: the
offending input tensor's name, the shape it was validated against, and its
post-iteration shape. -/
structure ShapeError where
  inputName : String
  invariantShape : TShape
  outputShape : TShape
deriving DecidableEq, Repr

/-- while_v2.py lines 685-693: zip the loop outputs with the shape invariants
and the loop inputs and raise on the first output whose shape is not
less-than-or-equal to its invariant. -/
def check_shapes_compat : List STensor → List TShape → List STensor → Except ShapeError Unit
  | t :: ts, shape :: shapes, input_t :: input_ts =>
    if ¬ shapeLessThanOrEqual t.shape shape then
      .error ⟨input_t.sname, shape, t.shape⟩
    else check_shapes_compat ts shapes input_ts
  | _, _, _ => .ok ()

/-- while_v2.py lines 74-77: when the caller gives no shape invariants, the
initial shapes of the loop variables are used. -/
def effectiveInvariants (loopVars : List STensor) : Option (List TShape) → List TShape
  | none => loopVars.map (·.shape)
  | some s => s

/-! ### The backward loop's condition and iteration count (C2)

`_create_grad_func` (lines 374-377) starts the backward counter at the constant
0 and reads `total_iters` from the forward While op's output 0; `grad_cond`
(lines 292-293) is the predicate `counter < max_iters`; `_grad_fn` (line 432)
returns `counter + 1` as the backward counter update, and the forward
`wrapped_body` (line 154) returns `loop_counter + 1` as the forward one. -/

/-- while_v2.py lines 292-293: the backward condition sub-program. The
trailing arguments (the gradient state) are ignored. -/
def grad_cond {γ : Type} (counter : Nat) (max_iters : Nat) (unused_args : List γ) : Bool :=
  decide (counter < max_iters)

/-- while_v2.py line 154: the forward body's counter update. -/
def forwardCounterUpdate (loop_counter : Nat) : Nat := loop_counter + 1

/-- The forward While op's counter output (output index 0) after `k`
iterations, starting from the constant 0 prepended at line 88. -/
def forwardCounterAfter : Nat → Nat
  | 0 => 0
  | k + 1 => forwardCounterUpdate (forwardCounterAfter k)

/-- The flattened state of the backward loop: `args = [counter, total_iters] +
grads` (line 377). -/
structure GradLoopState (γ : Type) where
  counter : Nat
  total_iters : Nat
  grads : List γ
deriving Repr

/-- while_v2.py lines 430-432: one backward body step returns
`[counter + 1, total_iters] + grad_outs`, where `grad_outs` comes from the
generic differentiator (a collaborator, abstracted as `gradStep`). -/
def gradBodyStep {γ : Type} (gradStep : GradLoopState γ → List γ) (s : GradLoopState γ) :
    GradLoopState γ :=
  { counter := s.counter + 1, total_iters := s.total_iters, grads := gradStep s }

/-- Modelled from the spec: the While operator's runtime (a collaborator
outside src) repeatedly evaluates the condition sub-program and, while it
holds, runs the body sub-program. `loopRun` returns the final state and the
number of body invocations, cut off by the fuel argument. -/
def loopRun {σ : Type} (cond : σ → Bool) (body : σ → σ) : Nat → σ → σ × Nat
  | 0, s => (s, 0)
  | fuel + 1, s =>
    if cond s then
      ((loopRun cond body fuel (body s)).1, (loopRun cond body fuel (body s)).2 + 1)
    else (s, 0)

/-- The backward loop of `_WhileGrad`, started as `_create_grad_func` starts
it: counter 0, `total_iters` read from the forward op's counter output. -/
def backwardLoop {γ : Type} (gradStep : GradLoopState γ → List γ) (total_iters : Nat)
    (grads0 : List γ) (fuel : Nat) : GradLoopState γ × Nat :=
  loopRun (fun s => grad_cond s.counter s.total_iters s.grads)
    (gradBodyStep gradStep) fuel ⟨0, total_iters, grads0⟩

/-! ### The nested loop-carried structure and while_loop's return value (C1)

`while_loop` (lines 61-245) lowers TensorArrays to their flow variables,
prepends a scalar loop counter, appends the cond captures, body captures and
accumulators to the flattened loop variable list, emits the While op, and
returns `outputs[1]` bare when the flattened structure has exactly one element
and `_pack_sequence_as(orig_loop_vars, outputs[1:1 + num_flattened_outputs])`
otherwise. -/

/-- A loop-carried leaf value: a plain tensor or a TensorArray, the latter
carrying its resource handle and its current flow value. -/
inductive LoopVal where
  | tensor (tv : Nat)
  | tensorArray (handle : Nat) (flow : Nat)
deriving DecidableEq, Repr

/-- A nested loop-carried structure in the sense of `nest`: leaves are tensors
or TensorArrays, nodes are sequences. -/
inductive Struct where
  | leaf (v : LoopVal)
  | node (children : List Struct)
deriving Repr

mutual

/-- `nest.flatten` (a collaborator outside src, modelled from the spec):
left-to-right leaves of the structure. -/
def Struct.flatten : Struct → List LoopVal
  | .leaf v => [v]
  | .node cs => flattenList cs

/-- `nest.flatten` on a list of sub-structures. -/
def flattenList : List Struct → List LoopVal
  | [] => []
  | s :: ss => s.flatten ++ flattenList ss

end

mutual

/-- `nest.map_structure` (a collaborator outside src, modelled from the spec):
apply a function to every leaf, keeping the structure. -/
def Struct.mapLeaves (f : LoopVal → LoopVal) : Struct → Struct
  | .leaf v => .leaf (f v)
  | .node cs => .node (mapLeavesList f cs)

/-- `nest.map_structure` on a list of sub-structures. -/
def mapLeavesList (f : LoopVal → LoopVal) : List Struct → List Struct
  | [] => []
  | s :: ss => s.mapLeaves f :: mapLeavesList f ss

end

/-- while_v2.py lines 800-807 (`_tensor_array_to_flow`, leaf case): a
TensorArray is replaced by its flow variable. -/
def taToFlowVal : LoopVal → LoopVal
  | .tensorArray _ f => .tensor f
  | v => v

/-- while_v2.py lines 800-807: `_tensor_array_to_flow` maps `taToFlowVal` over
the structure. -/
def tensor_array_to_flow (s : Struct) : Struct := s.mapLeaves taToFlowVal

/-- The flow id of a value handed to `flow_to_tensor_array` (the flows that
reach it are always plain tensors). -/
def flowId : LoopVal → Nat
  | .tensor i => i
  | .tensorArray _ f => f

/-- while_v2.py lines 778-791 (`flow_to_tensor_array`): when the original leaf
is a TensorArray, rebuild a TensorArray with the original handle and the new
flow; otherwise the flow value passes through. -/
def flow_to_tensor_array (flow : LoopVal) (ta : LoopVal) : LoopVal :=
  match ta with
  | .tensorArray h _ => .tensorArray h (flowId flow)
  | _ => flow

mutual

/-- `nest.pack_sequence_as` combined with `flow_to_tensor_array`
(while_v2.py lines 775-797): consume the flat value list left to right,
rebuilding the original structure; `none` when the list is too short. Returns
the rebuilt structure and the unconsumed suffix. -/
def packAux : Struct → List LoopVal → Option (Struct × List LoopVal)
  | .leaf orig, vals =>
    match vals with
    | v :: rest => some (.leaf (flow_to_tensor_array v orig), rest)
    | [] => none
  | .node cs, vals =>
    match packListAux cs vals with
    | some (cs', rest) => some (.node cs', rest)
    | none => none

/-- `packAux` over a list of sub-structures. -/
def packListAux : List Struct → List LoopVal → Option (List Struct × List LoopVal)
  | [], vals => some ([], vals)
  | s :: ss, vals =>
    match packAux s vals with
    | some (s', rest) =>
      match packListAux ss rest with
      | some (ss', rest') => some (s' :: ss', rest')
      | none => none
    | none => none

end

/-- while_v2.py lines 775-797 (`_pack_sequence_as`): zip the flat values
against the flattened original structure (extra values are dropped by `zip`)
and pack the result into the original structure; `none` models
`nest.pack_sequence_as` raising when too few values are supplied. -/
def pack_sequence_as (orig : Struct) (vals : List LoopVal) : Option Struct :=
  match packAux orig vals with
  | some (s, _) => some s
  | none => none

mutual

/-- Structural congruence in the sense of `nest.assert_same_structure`: equal
tree shapes, leaves matching leaves. -/
def sameStructure : Struct → Struct → Bool
  | .leaf _, .leaf _ => true
  | .node cs, .node ds => sameStructureList cs ds
  | _, _ => false

/-- `sameStructure` on lists of sub-structures. -/
def sameStructureList : List Struct → List Struct → Bool
  | [], [] => true
  | c :: cs, d :: ds => sameStructure c d && sameStructureList cs ds
  | _, _ => false

end

/-- while_v2.py lines 88, 117, 168, 196: the flattened input list of the
emitted While op: the prepended loop counter, then the flattened (flow-lowered)
loop-carried values, then the cond graph's external captures, then the body
graph's external captures, then one empty accumulator per intermediate. -/
def assembledInputs (counter : LoopVal) (orig : Struct) (condCaps bodyCaps accums : List LoopVal) :
    List LoopVal :=
  counter :: (tensor_array_to_flow orig).flatten ++ condCaps ++ bodyCaps ++ accums

/-- Modelled from the spec: running the emitted While operator for 0 iterations
(the condition is false at entry) returns its inputs unchanged — the runtime of
the loop operator is a collaborator outside src. -/
def runZeroIterations (inputs : List LoopVal) : List LoopVal := inputs

/-- while_v2.py lines 240-245: the value `while_loop` returns, given the While
op's outputs. `num_flattened_outputs` is the length of the flattened original
structure; when it is 1 the single tensor `outputs[1]` is returned bare
(embedded as a bare leaf), otherwise `outputs[1:1 + num_flattened_outputs]` is
packed back into the original structure. -/
def whileLoopReturn (orig : Struct) (opOutputs : List LoopVal) : Option Struct :=
  let num_flattened_outputs := orig.flatten.length
  if num_flattened_outputs = 1 then
    (opOutputs.drop 1).head?.map .leaf
  else
    pack_sequence_as orig ((opOutputs.drop 1).take num_flattened_outputs)

/-- The composite modelled in C1: assemble the While op inputs from a loop
spec, logically run the operator for 0 iterations, and apply `while_loop`'s
return-value slicing and re-packing. -/
def whileLoopZeroIter (counter : LoopVal) (orig : Struct)
    (condCaps bodyCaps accums : List LoopVal) : Option Struct :=
  whileLoopReturn orig (runZeroIterations (assembledInputs counter orig condCaps bodyCaps accums))

/-! ### The accumulation manager (`_get_accumulator`, `_get_intermediates`,
while_loop lines 185-208) -/

/-- while_v2.py lines 503-512 (`get_func_graph_output` inside
`_get_accumulator`): return the tensor itself if it is a graph output, else the
output of its first consumer when that consumer is an Identity whose output is
a graph output, else none. The Python code indexes `t.consumers()[0]` and
`identity_op.outputs[0]`, which raises when the list is empty; those raises are
embedded as errors. -/
def get_func_graph_output (g : FuncGraph) (t : Tensor) : Except String (Option Tensor) :=
  if t ∈ g.outputs then .ok (some t)
  else
    match consumers g t with
    | [] => .error "IndexError: list index out of range"
    | identity_op :: _ =>
      if identity_op.opType = "Identity" then
        match identity_op.opOutputs with
        | [] => .error "IndexError: list index out of range"
        | o0 :: _ => if o0 ∈ g.outputs then .ok (some o0) else .ok none
      else .ok none

/-- The consumer loop of `_get_accumulator` (while_v2.py lines 514-531): scan
the consumers for a TensorListPushBack whose TensorList operand is a graph
input and whose (possibly Identity-wrapped) output is a graph output at the
same index. -/
def get_accumulator_go (g : FuncGraph) : List Op → Except String (Option Tensor)
  | [] => .ok none
  | consumer :: rest =>
    if consumer.opType ≠ "TensorListPushBack" then get_accumulator_go g rest
    else
      match consumer.opInputs with
      | [] => .error "IndexError: list index out of range"
      | tlIn :: _ =>
        if tlIn ∉ g.inputs then get_accumulator_go g rest
        else
          match consumer.opOutputs with
          | [] => .error "IndexError: list index out of range"
          | out0 :: _ =>
            match get_func_graph_output g out0 with
            | .error e => .error e
            | .ok none => get_accumulator_go g rest
            | .ok (some output) =>
              let accum_input_idx := indexOfT g.inputs tlIn
              let accum_output_idx := indexOfT g.outputs output
              if accum_input_idx = accum_output_idx then .ok (some output)
              else get_accumulator_go g rest

/-- while_v2.py lines 474-531 (`_get_accumulator`): the TensorList accumulating
a tensor's per-iteration values, found by the push-back pattern whose list is a
graph input and a graph output at the same index; none when no accumulator
exists. -/
def get_accumulator (g : FuncGraph) (tensor : Tensor) : Except String (Option Tensor) :=
  get_accumulator_go g (consumers g tensor)

/-- The per-output test of `_get_intermediates` (while_v2.py lines 466-470):
keep an output if it is not the loop counter (`func_graph.inputs[0]`, whose
read raises when the graph has no inputs), is not resource-typed, and has no
existing accumulator; the accumulator search only runs when the first two
conditions hold, as in the Python short-circuit. -/
def intermediatesOfOutputs (g : FuncGraph) : List Tensor → Except String (List Tensor)
  | [] => .ok []
  | o :: os =>
    match g.inputs with
    | [] => .error "IndexError: list index out of range"
    | counter :: _ =>
      if o ≠ counter ∧ o.dtype ≠ DType.resource then
        match get_accumulator g o with
        | .error e => .error e
        | .ok acc =>
          match intermediatesOfOutputs g os with
          | .error e => .error e
          | .ok rest => .ok (if acc.isNone then o :: rest else rest)
      else
        match intermediatesOfOutputs g os with
        | .error e => .error e
        | .ok rest => .ok rest

/-- The operation loop of `_get_intermediates` (while_v2.py lines 463-470):
outputs of Identity operations are skipped wholesale. -/
def intermediatesOfOps (g : FuncGraph) : List Op → Except String (List Tensor)
  | [] => .ok []
  | op :: ops =>
    match (if op.opType = "Identity" then .ok [] else intermediatesOfOutputs g op.opOutputs :
        Except String (List Tensor)) with
    | .error e => .error e
    | .ok fromOp =>
      match intermediatesOfOps g ops with
      | .error e => .error e
      | .ok rest => .ok (fromOp ++ rest)

/-- while_v2.py lines 435-471 (`_get_intermediates`): all tensors of the body
graph that should be accumulated. -/
def get_intermediates (g : FuncGraph) : Except String (List Tensor) :=
  intermediatesOfOps g g.ops

/-- The state mutated by while_loop's accumulation loop (lines 190-208): the
growing loop variable list, the cond and body graphs, and a fresh-id counter
for newly created tensors. -/
structure LoopAssembly where
  loopVars : List Tensor
  condGraph : FuncGraph
  bodyGraph : FuncGraph
  nextId : Nat
deriving Repr

/-- One turn of while_loop's accumulation loop (lines 190-208): create a fresh
empty TensorList in the outer graph, append it to the loop variables, capture
it in the cond graph (a fresh placeholder input), capture it in the body graph
and push the intermediate tensor onto it there, and append the pushed list to
the body outputs. -/
def addAccumulator (outerGid : Nat) (a : LoopAssembly) (intermediate : Tensor) : LoopAssembly :=
  let tensor_list : Tensor := ⟨a.nextId, outerGid, .variant⟩
  let cond_ph : Tensor := ⟨a.nextId + 1, a.condGraph.gid, .variant⟩
  let body_ph : Tensor := ⟨a.nextId + 2, a.bodyGraph.gid, .variant⟩
  let appended_tensor_list : Tensor := ⟨a.nextId + 3, a.bodyGraph.gid, .variant⟩
  let push : Op :=
    { opType := "TensorListPushBack", opInputs := [body_ph, intermediate],
      opOutputs := [appended_tensor_list] }
  { loopVars := a.loopVars ++ [tensor_list]
    condGraph := { a.condGraph with
      ops := a.condGraph.ops ++ [{ opType := "Placeholder", opInputs := [], opOutputs := [cond_ph] }]
      inputs := a.condGraph.inputs ++ [cond_ph]
      captures := a.condGraph.captures ++ [(tensor_list, cond_ph)] }
    bodyGraph := { a.bodyGraph with
      ops := a.bodyGraph.ops ++
        [{ opType := "Placeholder", opInputs := [], opOutputs := [body_ph] }, push]
      inputs := a.bodyGraph.inputs ++ [body_ph]
      outputs := a.bodyGraph.outputs ++ [appended_tensor_list]
      captures := a.bodyGraph.captures ++ [(tensor_list, body_ph)] }
    nextId := a.nextId + 4 }

/-- while_v2.py lines 190-208: the whole accumulation loop over a list of
intermediate tensors. -/
def accumulatePass (outerGid : Nat) (a : LoopAssembly) (ints : List Tensor) : LoopAssembly :=
  ints.foldl (addAccumulator outerGid) a

/-! ### TensorArray handle detection and the gradient entry point's None
handling (`_WhileGrad`, `_is_tensor_array_handle`; C3, C10) -/

/-- while_v2.py lines 54-58: op types that output a TensorArray handle. -/
def TENSOR_ARRAY_HANDLE_OPS : List String :=
  ["TensorArrayV3", "TensorArrayGradV3", "TensorArrayGradWithShape"]

/-- Modelled from the spec: `func_graph_module.maybe_captured` (a collaborator
outside src) follows capture links: while the tensor is the placeholder that a
graph created when capturing an outer tensor, it is replaced by that outer
tensor. The fuel bounds the chase; callers pass at least the capture-list
length, which the chain cannot exceed in the graphs modelled here. -/
def maybe_captured (g : FuncGraph) : Nat → Tensor → Tensor
  | 0, t => t
  | fuel + 1, t =>
    if opTypeOf g t = "Placeholder" then
      match (g.captures.find? (fun p => p.2 = t)).map (·.1) with
      | some external => maybe_captured g fuel external
      | none => t
    else t

/-- while_v2.py lines 757-772 (`_is_tensor_array_handle`): a resource tensor
is a TensorArray handle when, after looking through a While op's output to the
input at the same index and through capture links, its producing op is a
TensorArray-creating op. -/
def is_tensor_array_handle (g : FuncGraph) (tensor : Tensor) : Bool :=
  if tensor.dtype ≠ DType.resource then false
  else
    let tensor1 :=
      match producer g tensor with
      | some op =>
        if op.opType = "While" then
          op.opInputs.getD (indexOfT op.opOutputs tensor) tensor
        else tensor
      | none => tensor
    let tensor2 := maybe_captured g (g.captures.length + 1) tensor1
    decide (opTypeOf g tensor2 ∈ TENSOR_ARRAY_HANDLE_OPS)

/-- while_v2.py lines 258-261: before anything else, `_WhileGrad` replaces the
incoming gradient of every forward output that is a TensorArray handle with
None. -/
def forceTAGrads (g : FuncGraph) (whileOp : Op) (grads : List (Option Tensor)) :
    List (Option Tensor) :=
  (grads.zip whileOp.opOutputs).map fun p =>
    if is_tensor_array_handle g p.2 then none else p.1

/-- Modelled from the spec: `gradients_impl.IsTrainable` (a collaborator
outside src) holds for the floating-point dtypes; of the dtypes modelled here
that is exactly float32. -/
def IsTrainable (t : Tensor) : Bool := t.dtype = DType.float32

/-- while_v2.py lines 264-267: the assertion that every trainable, non-resource
forward output has an incoming gradient (checked on the already-forced
gradient list). -/
def allTrainableHaveGrads (outputs : List Tensor) (grads : List (Option Tensor)) : Bool :=
  (outputs.zip grads).all fun p => p.2.isSome || p.1.dtype = DType.resource || !(IsTrainable p.1)

/-- A placeholder tensor standing in for Python's IndexError when
`outputs[index]` is read out of range in the padding loop; the theorems only
use in-range instances. -/
def dummyTensor : Tensor := ⟨0, 0, DType.float32⟩

/-- while_v2.py lines 317-324: walk the (forced) gradient list, emitting None
where the gradient is None and the next backward While op output otherwise,
starting at output index 2 (index 0 is the backward counter, index 1 the total
iteration count). -/
def nonePaddedGo (outputs : List Tensor) : List (Option Tensor) → Nat → List (Option Tensor)
  | [], _ => []
  | none :: gs, index => none :: nonePaddedGo outputs gs index
  | some _ :: gs, index => some (outputs.getD index dummyTensor) :: nonePaddedGo outputs gs (index + 1)

/-- while_v2.py lines 313-325: the None re-padding of `_WhileGrad`'s result. -/
def nonePadded (grads : List (Option Tensor)) (outputs : List Tensor) : List (Option Tensor) :=
  nonePaddedGo outputs grads 2

/-- The number of present gradients (the length of the dense selected list at
while_v2.py line 271). -/
def countSome (grads : List (Option Tensor)) : Nat :=
  (grads.filterMap id).length

/-- while_v2.py lines 249-325, restricted to its input/output plumbing: force
TensorArray-handle gradients to None, assert that all trainable non-resource
outputs have gradients, and pad the backward While op's outputs (abstracted as
`backOutputs`, since the backward graph construction itself goes through the
collaborators) with None at the absent positions. -/
def whileGradOutputs (g : FuncGraph) (whileOp : Op) (grads : List (Option Tensor))
    (backOutputs : List Tensor) : Except String (List (Option Tensor)) :=
  let grads' := forceTAGrads g whileOp grads
  if ¬ allTrainableHaveGrads whileOp.opOutputs grads' then
    .error "All trainable loop vars must receive incoming gradients."
  else .ok (nonePadded grads' backOutputs)

/-! ### The gradient capture resolver
(`_WhileBodyGradFuncGraph._capture_helper`, lines 613-682; C8, C9) -/

/-- The mutable state of a `_WhileBodyGradFuncGraph` under construction: the
base FuncGraph capture map and placeholder input list, the resolver's
`_indirect_captures`, `_inner_to_outer_tensor` and `popped_tensor_lists` dicts
(while_v2.py lines 566-585), the ops created so far in the gradient graph, and
a fresh-id counter. -/
structure GradState where
  captures : List (Tensor × Tensor)
  gradInputs : List Tensor
  indirect_captures : List (Tensor × Tensor)
  inner_to_outer_tensor : List (Tensor × Tensor)
  popped_tensor_lists : List (Tensor × Tensor)
  gradOps : List Op
  nextId : Nat
deriving DecidableEq, Repr

/-- The fixed context of one backward-body construction: the forward body
graph, the forward While operation (`_forward_graph._while`), the id of the
forward outer graph, and the id of the gradient graph being built. -/
structure ForwardEnv where
  forwardGraph : FuncGraph
  whileOp : Op
  outerGid : Nat
  gradGid : Nat
deriving Repr

/-- Modelled from the spec: the base `FuncGraph._capture_helper` of the Closure
Builder (a collaborator outside src) returns the cached placeholder for an
already-captured tensor, and otherwise creates a fresh placeholder input for it
and records the pair in the capture map. -/
def baseCaptureHelper (gradGid : Nat) (st : GradState) (t : Tensor) : Tensor × GradState :=
  match lookupT st.captures t with
  | some ph => (ph, st)
  | none =>
    let ph : Tensor := ⟨st.nextId, gradGid, t.dtype⟩
    (ph,
      { st with
        captures := st.captures ++ [(t, ph)]
        gradInputs := st.gradInputs ++ [ph]
        gradOps := st.gradOps ++ [{ opType := "Placeholder", opInputs := [], opOutputs := [ph] }]
        nextId := st.nextId + 1 })

/-- Modelled from the spec: `FuncGraph.capture` returns a tensor of the graph
itself unchanged and otherwise dispatches to the capture hook; the resolver's
whitelisted calls reach the base hook because the captured tensor lives in the
outer graph, not the forward graph (while_v2.py lines 587-611, 653-654). -/
def whitelistedCapture (env : ForwardEnv) (st : GradState) (t : Tensor) : Tensor × GradState :=
  if t.graphId = env.gradGid then (t, st)
  else baseCaptureHelper env.gradGid st t

/-- while_v2.py lines 617-620: skip through Identity ops to their input. The
fuel bounds the walk; callers pass the op count of the forward graph, which an
acyclic Identity chain cannot exceed. -/
def skipIdentity (env : ForwardEnv) : Nat → Tensor → Tensor
  | 0, t => t
  | fuel + 1, t =>
    match producer env.forwardGraph t with
    | some op =>
      if op.opType = "Identity" then
        match op.opInputs with
        | i :: _ => skipIdentity env fuel i
        | [] => t
      else t
    | none => t

/-- while_v2.py lines 635-646: locate the forward-graph input index of a
resource tensor — directly when it is a loop input, through the matching input
of a nested While op otherwise; a resource produced inside the loop body by
any other op is the fatal unsupported case. -/
def resourceIndex (env : ForwardEnv) (tensor : Tensor) : Except String Nat :=
  if tensor ∈ env.forwardGraph.inputs then
    .ok (indexOfT env.forwardGraph.inputs tensor)
  else
    match producer env.forwardGraph tensor with
    | some op =>
      if op.opType = "While" then
        match op.opInputs.get? (indexOfT op.opOutputs tensor) with
        | some innerInput =>
          if innerInput ∈ env.forwardGraph.inputs then
            .ok (indexOfT env.forwardGraph.inputs innerInput)
          else .error "ValueError: x not in list"
        | none => .error "IndexError: list index out of range"
      else
        .error ("Taking gradient of a while loop which creates a resource in its body is not supported: " ++ toString tensor.tid)
    | none =>
      .error ("Taking gradient of a while loop which creates a resource in its body is not supported: " ++ toString tensor.tid)

/-- The body of the resource branch after the input index has been found
(while_v2.py lines 647-655). -/
def captureResourceAt (env : ForwardEnv) (st : GradState) (tensor : Tensor) (index : Nat) :
    Except String (Tensor × GradState) :=
  match env.forwardGraph.inputs.get? index, env.forwardGraph.outputs.get? index with
  | some inputAt, some outputAt =>
    if inputAt ≠ outputAt then
      .error "AssertionError: Resource tensors must be loop invariants."
    else
      match env.whileOp.opInputs.get? index with
      | none => .error "IndexError: list index out of range"
      | some tensor_in_outer_graph =>
        let st1 := { st with
          inner_to_outer_tensor := updateT st.inner_to_outer_tensor tensor tensor_in_outer_graph }
        let (ph, st2) := whitelistedCapture env st1 tensor_in_outer_graph
        let st3 := { st2 with indirect_captures := updateT st2.indirect_captures tensor ph }
        .ok (ph, st3)
  | _, _ => .error "IndexError: list index out of range"

/-- The resource branch of `_capture_helper` (while_v2.py lines 630-655):
locate the loop-invariant input index of the resource tensor, check the
invariant, and resolve to the forward While op's own input at that index via a
whitelisted capture. -/
def captureResource (env : ForwardEnv) (st : GradState) (tensor : Tensor) :
    Except String (Tensor × GradState) :=
  match resourceIndex env tensor with
  | .error e => .error e
  | .ok index => captureResourceAt env st tensor index

/-- The accumulator branch of `_capture_helper` (while_v2.py lines 657-682):
find the tensor's accumulator in the forward graph, map it to the forward While
op's corresponding output, capture that, pop one value off the captured list,
cache the popped value and record the remainder list. -/
def captureThroughAccumulator (env : ForwardEnv) (st : GradState) (tensor : Tensor) :
    Except String (Tensor × GradState) :=
  if (lookupT st.inner_to_outer_tensor tensor).isSome then
    .error "AssertionError: tensor already in inner_to_outer_tensor"
  else
    match get_accumulator env.forwardGraph tensor with
    | .error e => .error e
    | .ok none => .error ("Reference to un-accumulated intermediate tensor: " ++ toString tensor.tid)
    | .ok (some accumulator) =>
      if accumulator.graphId ≠ env.forwardGraph.gid then
        .error "AssertionError: accumulator not in forward graph"
      else
        match env.whileOp.opOutputs.get? (indexOfT env.forwardGraph.outputs accumulator) with
        | none => .error "IndexError: list index out of range"
        | some accumulatorOuter =>
          if accumulatorOuter.graphId ≠ env.outerGid then
            .error "AssertionError: accumulator not in forward outer graph"
          else
            let st1 := { st with
              inner_to_outer_tensor := updateT st.inner_to_outer_tensor tensor accumulatorOuter }
            let (accumulator_ph, st2) := baseCaptureHelper env.gradGid st1 accumulatorOuter
            let new_tensor_list : Tensor := ⟨st2.nextId, env.gradGid, .variant⟩
            let captured_tensor : Tensor := ⟨st2.nextId + 1, env.gradGid, tensor.dtype⟩
            let popOp : Op :=
              { opType := "TensorListPopBack", opInputs := [accumulator_ph],
                opOutputs := [new_tensor_list, captured_tensor] }
            let st3 := { st2 with
              gradOps := st2.gradOps ++ [popOp]
              indirect_captures := updateT st2.indirect_captures tensor captured_tensor
              popped_tensor_lists := updateT st2.popped_tensor_lists accumulator_ph new_tensor_list
              nextId := st2.nextId + 2 }
            .ok (captured_tensor, st3)

/-- while_v2.py lines 622-682 (`_WhileBodyGradFuncGraph._capture_helper` after
the Identity skip): an already-resolved forward tensor is served from the
`_indirect_captures` cache; otherwise it is resolved through the resource
branch or through the accumulator branch. -/
def capture_forward (env : ForwardEnv) (st : GradState) (tensor : Tensor) :
    Except String (Tensor × GradState) :=
  match lookupT st.indirect_captures tensor with
  | some captured_tensor =>
    match lookupT st.inner_to_outer_tensor tensor with
    | some outer =>
      if (lookupT st.captures outer).isNone then
        .error "AssertionError: inner_to_outer_tensor value not captured"
      else
        match baseCaptureHelper env.gradGid st outer with
        | (_, st') => .ok (captured_tensor, st')
    | none => .error "KeyError: tensor not in inner_to_outer_tensor"
  | none =>
    if tensor.dtype = DType.resource then captureResource env st tensor
    else captureThroughAccumulator env st tensor

/-- while_v2.py lines 613-615: the dispatch of `_capture_helper` — tensors
outside the forward graph fall through to the base hook, forward-graph tensors
are Identity-skipped and resolved by `capture_forward`. -/
def capture_helper (env : ForwardEnv) (st : GradState) (t0 : Tensor) :
    Except String (Tensor × GradState) :=
  if t0.graphId ≠ env.forwardGraph.gid then
    .ok (baseCaptureHelper env.gradGid st t0)
  else
    capture_forward env st (skipIdentity env env.forwardGraph.ops.length t0)

/-- The number of TensorListPopBack operations created so far in the gradient
graph: each one consumes one accumulated value per backward iteration. -/
def popCount (st : GradState) : Nat :=
  (st.gradOps.filter (fun o => o.opType = "TensorListPopBack")).length

/-! ## Theorems -/

/-- Claim C4: for every loop specification in which the same external value is
referenced by both the cond closure and the body closure, forward assembly
fails fatally with the message instructing the caller to pass that value as an
explicit loop variable; assembly never silently deduplicates such a shared
capture. -/
theorem c4_shared_capture_is_fatal (condCaptured bodyCaptures : List Tensor) (t : Tensor)
    (hc : t ∈ condCaptured) (hb : t ∈ bodyCaptures) :
    captureBodyCaptures condCaptured bodyCaptures = .error sharedCaptureMsg := by
  induction bodyCaptures generalizing condCaptured with
  | nil => cases hb
  | cons b bs ih =>
    unfold captureBodyCaptures
    by_cases hbc : b ∈ condCaptured
    · simp [hbc]
    · simp only [if_neg hbc]
      rcases List.mem_cons.mp hb with h | h
      · exact absurd (h ▸ hc) hbc
      · exact ih (condCaptured ++ [b]) (List.mem_append_left _ hc) h

/-- Witness for C4 at a concrete shared capture. -/
theorem c4_witness :
    (⟨3, 0, DType.float32⟩ : Tensor) ∈ [(⟨3, 0, DType.float32⟩ : Tensor)] ∧
    captureBodyCaptures [⟨3, 0, DType.float32⟩] [⟨3, 0, DType.float32⟩] =
      .error sharedCaptureMsg :=
  ⟨by decide, c4_shared_capture_is_fatal _ _ ⟨3, 0, DType.float32⟩ (by decide) (by decide)⟩

/-- The iteration count of the backward loop, run from any starting counter. -/
theorem loopRun_grad_count {γ : Type} (gradStep : GradLoopState γ → List γ) :
    ∀ (fuel c N : Nat) (gs : List γ), N - c ≤ fuel →
      (loopRun (fun s => grad_cond s.counter s.total_iters s.grads)
        (gradBodyStep gradStep) fuel ⟨c, N, gs⟩).2 = N - c := by
  intro fuel
  induction fuel with
  | zero =>
    intro c N gs h
    simp only [loopRun]
    omega
  | succ f ih =>
    intro c N gs h
    simp only [loopRun]
    by_cases hc : c < N
    · rw [if_pos (by simp [grad_cond, hc])]
      simp only [gradBodyStep]
      rw [ih (c + 1) N (gradStep ⟨c, N, gs⟩) (by omega)]
      omega
    · rw [if_neg (by simp [grad_cond, hc])]
      omega

/-- The forward While op's counter output equals the number of iterations the
forward loop performed. -/
theorem forwardCounterAfter_eq (k : Nat) : forwardCounterAfter k = k := by
  induction k with
  | zero => rfl
  | succ n ih => simp [forwardCounterAfter, forwardCounterUpdate, ih]

/-- Claim C2: the backward condition sub-program is the predicate
`counter < total_iterations` (definitionally, `grad_cond`), with
`total_iterations` read from the forward loop's counter output (output index 0,
whose value after k forward iterations is `forwardCounterAfter k`) and the
backward counter starting at 0; consequently the backward loop executes
exactly as many iterations as the forward loop did, for every gradient state
and every differentiator. -/
theorem c2_backward_iteration_count {γ : Type} (gradStep : GradLoopState γ → List γ)
    (k : Nat) (grads0 : List γ) (fuel : Nat) (hfuel : k ≤ fuel) :
    (backwardLoop gradStep (forwardCounterAfter k) grads0 fuel).2 = k := by
  unfold backwardLoop
  rw [forwardCounterAfter_eq,
    loopRun_grad_count gradStep fuel 0 k grads0 (by omega)]
  omega

/-- Witness for C2: a 3-iteration forward loop yields a 3-iteration backward
loop. -/
theorem c2_witness :
    3 ≤ 5 ∧
      (backwardLoop (γ := Nat) (fun s => s.grads) (forwardCounterAfter 3) [7] 5).2 = 3 :=
  ⟨by decide, c2_backward_iteration_count (fun s => s.grads) 3 [7] 5 (by decide)⟩

/-- Shape validation succeeds exactly when every (output, invariant, input)
triple is shape-compatible. -/
theorem check_shapes_compat_ok_iff (outs : List STensor) (invs : List TShape)
    (ins : List STensor) :
    check_shapes_compat outs invs ins = .ok () ↔
      ∀ p ∈ List.zip outs (List.zip invs ins), shapeLessThanOrEqual p.1.shape p.2.1 = true := by
  induction outs generalizing invs ins with
  | nil => simp [check_shapes_compat]
  | cons t ts ih =>
    cases invs with
    | nil => simp [check_shapes_compat]
    | cons s ss =>
      cases ins with
      | nil => simp [check_shapes_compat]
      | cons i is' =>
        simp only [check_shapes_compat, List.zip_cons_cons, List.mem_cons]
        by_cases hsle : shapeLessThanOrEqual t.shape s = true
        · rw [if_neg (by simp [hsle])]
          rw [ih ss is']
          constructor
          · intro hall p hp
            rcases hp with hp | hp
            · subst hp; exact hsle
            · exact hall p hp
          · intro hall p hp
            exact hall p (Or.inr hp)
        · rw [if_pos (by simp [hsle])]
          constructor
          · intro hcontra
            exact Except.noConfusion hcontra
          · intro hall
            exact absurd (hall (t, (s, i)) (Or.inl rfl)) hsle

/-- Every shape-validation error names an offending triple: the input value's
name, the shape it was validated against, and its post-iteration shape. -/
theorem check_shapes_compat_error (outs : List STensor) (invs : List TShape)
    (ins : List STensor) (e : ShapeError)
    (herr : check_shapes_compat outs invs ins = .error e) :
    ∃ p ∈ List.zip outs (List.zip invs ins),
      shapeLessThanOrEqual p.1.shape p.2.1 = false ∧
      e = ⟨p.2.2.sname, p.2.1, p.1.shape⟩ := by
  induction outs generalizing invs ins with
  | nil => exact Except.noConfusion herr
  | cons t ts ih =>
    cases invs with
    | nil => exact Except.noConfusion herr
    | cons s ss =>
      cases ins with
      | nil => exact Except.noConfusion herr
      | cons i is' =>
        simp only [check_shapes_compat] at herr
        by_cases hsle : shapeLessThanOrEqual t.shape s = true
        · rw [if_neg (by simp [hsle])] at herr
          rcases ih ss is' herr with ⟨p, hp, hfalse, hname⟩
          exact ⟨p, by simp [hp], hfalse, hname⟩
        · rw [if_pos (by simp [hsle])] at herr
          refine ⟨(t, (s, i)), by simp, by simp [hsle], ?_⟩
          cases herr
          rfl

/-- Claim C5: for every loop-carried output, forward assembly checks its
post-iteration shape against its declared invariant shape or, when invariants
are unspecified, against its initial shape (`effectiveInvariants`); validation
succeeds exactly when every output shape is an instance of its invariant
(wildcard invariant dimensions unconstrained, concrete dimensions matched
exactly, per `shapeLessThanOrEqual`), and any incompatibility is a fatal error
naming the offending value, the shape it entered validation with, and its
post-iteration shape. -/
theorem c5_shape_validation (outs : List STensor) (invsOpt : Option (List TShape))
    (ins : List STensor) :
    (check_shapes_compat outs (effectiveInvariants ins invsOpt) ins = .ok () ↔
      ∀ p ∈ List.zip outs (List.zip (effectiveInvariants ins invsOpt) ins),
        shapeLessThanOrEqual p.1.shape p.2.1 = true) ∧
    (∀ e, check_shapes_compat outs (effectiveInvariants ins invsOpt) ins = .error e →
      ∃ p ∈ List.zip outs (List.zip (effectiveInvariants ins invsOpt) ins),
        shapeLessThanOrEqual p.1.shape p.2.1 = false ∧
        e = ⟨p.2.2.sname, p.2.1, p.1.shape⟩) :=
  ⟨check_shapes_compat_ok_iff outs _ ins,
   fun e herr => check_shapes_compat_error outs _ ins e herr⟩

/-- Witness for C5: a loop value keeping its shape passes validation against
the default (initial-shape) invariant, and a grown shape against a concrete
invariant fails with the error naming the value and both shapes. -/
theorem c5_witness :
    check_shapes_compat [⟨"x", some [some 2]⟩]
        (effectiveInvariants [⟨"x", some [some 2]⟩] none) [⟨"x", some [some 2]⟩] = .ok () ∧
    check_shapes_compat [⟨"y", some [some 2]⟩]
        (effectiveInvariants [⟨"y", some [some 1]⟩] (some [some [some 1]]))
        [⟨"y", some [some 1]⟩] = .error ⟨"y", some [some 1], some [some 2]⟩ :=
  ⟨(c5_shape_validation [⟨"x", some [some 2]⟩] none [⟨"x", some [some 2]⟩]).1.mpr
    (by decide), rfl⟩

mutual

/-- Lowering TensorArrays to flows maps the flattened leaves pointwise. -/
theorem flatten_mapLeaves (f : LoopVal → LoopVal) :
    (s : Struct) → (s.mapLeaves f).flatten = s.flatten.map f
  | .leaf v => rfl
  | .node cs => by
    simp only [Struct.mapLeaves, Struct.flatten]
    exact flattenList_mapLeavesList f cs

/-- List version of `flatten_mapLeaves`. -/
theorem flattenList_mapLeavesList (f : LoopVal → LoopVal) :
    (cs : List Struct) → flattenList (mapLeavesList f cs) = (flattenList cs).map f
  | [] => rfl
  | c :: cs => by
    simp only [mapLeavesList, flattenList, List.map_append]
    rw [flatten_mapLeaves f c, flattenList_mapLeavesList f cs]

end

/-- Converting a TensorArray leaf to its flow and packing the flow back
restores the original leaf. -/
theorem flow_roundtrip (v : LoopVal) : flow_to_tensor_array (taToFlowVal v) v = v := by
  cases v <;> rfl

mutual

/-- Packing the flow-lowered flattened leaves of a structure back into that
structure restores it exactly, leaving any appended suffix unconsumed. -/
theorem packAux_roundtrip :
    (s : Struct) → (rest : List LoopVal) →
      packAux s ((tensor_array_to_flow s).flatten ++ rest) = some (s, rest)
  | .leaf v, rest => by
    simp only [tensor_array_to_flow, Struct.mapLeaves, Struct.flatten, List.cons_append,
      List.nil_append, packAux]
    rw [flow_roundtrip v]
  | .node cs, rest => by
    simp only [tensor_array_to_flow, Struct.mapLeaves, Struct.flatten, packAux]
    rw [packListAux_roundtrip cs rest]

/-- List version of `packAux_roundtrip`. -/
theorem packListAux_roundtrip :
    (cs : List Struct) → (rest : List LoopVal) →
      packListAux cs (flattenList (mapLeavesList taToFlowVal cs) ++ rest) = some (cs, rest)
  | [], rest => rfl
  | c :: cs, rest => by
    simp only [mapLeavesList, flattenList, packListAux, List.append_assoc]
    have hc := packAux_roundtrip c (flattenList (mapLeavesList taToFlowVal cs) ++ rest)
    simp only [tensor_array_to_flow] at hc
    simp only [hc, packListAux_roundtrip cs rest]

end

/-- Claim C1, amended: when the flattened loop-carried structure does not have
exactly one element, the value `while_loop` returns after logically running the
emitted While operator for 0 iterations is exactly the input loop-carried
structure — the prepended counter is stripped, the trailing captures and
accumulators are dropped, and the structure (TensorArray leaves included) is
rebuilt unchanged. -/
theorem c1_zero_iterations_roundtrip (counter : LoopVal) (orig : Struct)
    (condCaps bodyCaps accums : List LoopVal) (h : orig.flatten.length ≠ 1) :
    whileLoopZeroIter counter orig condCaps bodyCaps accums = some orig := by
  unfold whileLoopZeroIter whileLoopReturn runZeroIterations assembledInputs
  simp only [h, if_false]
  have hlen : (tensor_array_to_flow orig).flatten.length = orig.flatten.length := by
    simp [tensor_array_to_flow, flatten_mapLeaves]
  have htake :
      ((tensor_array_to_flow orig).flatten ++ (condCaps ++ (bodyCaps ++ accums))).take
        orig.flatten.length = (tensor_array_to_flow orig).flatten := by
    rw [← hlen, List.take_left]
  simp only [List.cons_append, List.append_assoc, List.drop_one, List.tail_cons]
  rw [htake]
  unfold pack_sequence_as
  have hpack := packAux_roundtrip orig []
  rw [List.append_nil] at hpack
  rw [hpack]

/-- Counterexample for C1 as stated: a loop-carried list holding exactly one
value is accepted by the assembler, but the value returned (even after 0
iterations) is the bare inner tensor, which is not structurally identical to
the 1-element input structure. -/
theorem c1_counterexample :
    whileLoopZeroIter (.tensor 0) (.node [.leaf (.tensor 7)]) [] [] [] =
      some (.leaf (.tensor 7)) ∧
    sameStructure (.leaf (.tensor 7)) (.node [.leaf (.tensor 7)]) = false :=
  ⟨rfl, rfl⟩

/-- Witness for C1 (amended) at a two-element structure containing a
TensorArray. -/
theorem c1_witness :
    (Struct.node [.leaf (.tensor 1), .leaf (.tensorArray 2 3)]).flatten.length ≠ 1 ∧
    whileLoopZeroIter (.tensor 0) (.node [.leaf (.tensor 1), .leaf (.tensorArray 2 3)])
        [.tensor 9] [.tensor 10] [.tensor 11] =
      some (.node [.leaf (.tensor 1), .leaf (.tensorArray 2 3)]) :=
  ⟨by decide, c1_zero_iterations_roundtrip (.tensor 0) _ _ _ _ (by decide)⟩

/-- Soundness of the intermediate filter on one op's outputs: every collected
tensor is one of the outputs, differs from the loop counter, is not
resource-typed and has no accumulator. -/
theorem intermediatesOfOutputs_mem (g : FuncGraph) :
    ∀ (os : List Tensor) (l : List Tensor), intermediatesOfOutputs g os = .ok l →
      ∀ t ∈ l, t ∈ os ∧ (∃ c r, g.inputs = c :: r ∧ t ≠ c) ∧
        t.dtype ≠ DType.resource ∧ get_accumulator g t = .ok none
  | [], l, h, t, hmem => by
    simp only [intermediatesOfOutputs] at h
    injection h with h
    subst h
    cases hmem
  | o :: os, l, h, t, hmem => by
    simp only [intermediatesOfOutputs] at h
    split at h
    · exact Except.noConfusion h
    · rename_i c r hgi
      by_cases hcond : o ≠ c ∧ o.dtype ≠ DType.resource
      · rw [if_pos hcond] at h
        split at h
        · exact Except.noConfusion h
        · rename_i acc hacc
          split at h
          · exact Except.noConfusion h
          · rename_i rest hrec
            injection h with h
            cases acc with
            | none =>
              simp only [Option.isNone_none, if_true] at h
              subst h
              rcases List.mem_cons.mp hmem with he | hm
              · subst he
                exact ⟨List.mem_cons_self t os, ⟨c, r, hgi, hcond.1⟩, hcond.2, hacc⟩
              · have hrest := intermediatesOfOutputs_mem g os rest hrec t hm
                exact ⟨List.mem_cons_of_mem o hrest.1, hrest.2⟩
            | some a =>
              simp only [Option.isNone_some, Bool.false_eq_true, if_false] at h
              subst h
              have hrest := intermediatesOfOutputs_mem g os rest hrec t hmem
              exact ⟨List.mem_cons_of_mem o hrest.1, hrest.2⟩
      · rw [if_neg hcond] at h
        split at h
        · exact Except.noConfusion h
        · rename_i rest hrec
          injection h with h
          subst h
          have hrest := intermediatesOfOutputs_mem g os rest hrec t hmem
          exact ⟨List.mem_cons_of_mem o hrest.1, hrest.2⟩

/-- Completeness of the intermediate filter on one op's outputs: an output
satisfying all the conditions is collected. -/
theorem intermediatesOfOutputs_complete (g : FuncGraph) (c : Tensor) (r : List Tensor)
    (hin : g.inputs = c :: r) :
    ∀ (os : List Tensor) (l : List Tensor), intermediatesOfOutputs g os = .ok l →
      ∀ t ∈ os, t ≠ c → t.dtype ≠ DType.resource → get_accumulator g t = .ok none →
        t ∈ l
  | [], l, h, t, hmem, _, _, _ => by cases hmem
  | o :: os, l, h, t, hmem, htc, htd, hta => by
    simp only [intermediatesOfOutputs, hin] at h
    rcases List.mem_cons.mp hmem with he | hm
    · subst he
      rw [if_pos ⟨htc, htd⟩] at h
      split at h
      · rename_i e hacc
        rw [hta] at hacc
        exact Except.noConfusion hacc
      · rename_i acc hacc
        rw [hta] at hacc
        injection hacc with hacc
        subst hacc
        split at h
        · exact Except.noConfusion h
        · rename_i rest hrec
          injection h with h
          simp only [Option.isNone_none, if_true] at h
          subst h
          exact List.mem_cons_self t rest
    · by_cases hcond : o ≠ c ∧ o.dtype ≠ DType.resource
      · rw [if_pos hcond] at h
        split at h
        · exact Except.noConfusion h
        · rename_i acc hacc
          split at h
          · exact Except.noConfusion h
          · rename_i rest hrec
            injection h with h
            have hrest := intermediatesOfOutputs_complete g c r hin os rest hrec t hm htc htd hta
            cases acc with
            | none =>
              simp only [Option.isNone_none, if_true] at h
              subst h
              exact List.mem_cons_of_mem o hrest
            | some a =>
              simp only [Option.isNone_some, Bool.false_eq_true, if_false] at h
              subst h
              exact hrest
      · rw [if_neg hcond] at h
        split at h
        · exact Except.noConfusion h
        · rename_i rest hrec
          injection h with h
          subst h
          exact intermediatesOfOutputs_complete g c r hin os rest hrec t hm htc htd hta

/-- Soundness of the candidate collection over the op list. -/
theorem intermediatesOfOps_mem (g : FuncGraph) :
    ∀ (ops : List Op) (l : List Tensor), intermediatesOfOps g ops = .ok l →
      ∀ t ∈ l, (∃ op ∈ ops, op.opType ≠ "Identity" ∧ t ∈ op.opOutputs) ∧
        (∃ c r, g.inputs = c :: r ∧ t ≠ c) ∧
        t.dtype ≠ DType.resource ∧ get_accumulator g t = .ok none
  | [], l, h, t, hmem => by
    simp only [intermediatesOfOps] at h
    injection h with h
    subst h
    cases hmem
  | op :: ops, l, h, t, hmem => by
    simp only [intermediatesOfOps] at h
    split at h
    · exact Except.noConfusion h
    · rename_i fromOp hout
      split at h
      · exact Except.noConfusion h
      · rename_i rest hrec
        injection h with h
        subst h
        rcases List.mem_append.mp hmem with hf | hr
        · by_cases hid : op.opType = "Identity"
          · rw [if_pos hid] at hout
            injection hout with hout
            subst hout
            cases hf
          · rw [if_neg hid] at hout
            have hm := intermediatesOfOutputs_mem g op.opOutputs fromOp hout t hf
            exact ⟨⟨op, List.mem_cons_self op ops, hid, hm.1⟩, hm.2⟩
        · have hm := intermediatesOfOps_mem g ops rest hrec t hr
          exact ⟨⟨hm.1.choose, List.mem_cons_of_mem op hm.1.choose_spec.1,
            hm.1.choose_spec.2⟩, hm.2⟩

/-- Completeness of the candidate collection over the op list. -/
theorem intermediatesOfOps_complete (g : FuncGraph) (c : Tensor) (r : List Tensor)
    (hin : g.inputs = c :: r) :
    ∀ (ops : List Op) (l : List Tensor), intermediatesOfOps g ops = .ok l →
      ∀ t op0, op0 ∈ ops → op0.opType ≠ "Identity" → t ∈ op0.opOutputs →
        t ≠ c → t.dtype ≠ DType.resource → get_accumulator g t = .ok none →
        t ∈ l
  | [], l, h, t, op0, hop, _, _, _, _, _ => by cases hop
  | op :: ops, l, h, t, op0, hop, hid0, hto, htc, htd, hta => by
    simp only [intermediatesOfOps] at h
    split at h
    · exact Except.noConfusion h
    · rename_i fromOp hout
      split at h
      · exact Except.noConfusion h
      · rename_i rest hrec
        injection h with h
        subst h
        rcases List.mem_cons.mp hop with he | hm
        · subst he
          rw [if_neg hid0] at hout
          exact List.mem_append_left rest
            (intermediatesOfOutputs_complete g c r hin op0.opOutputs fromOp hout t hto htc htd hta)
        · exact List.mem_append_right fromOp
            (intermediatesOfOps_complete g c r hin ops rest hrec t op0 hm hid0 hto htc htd hta)

/-- The accumulation loop appends exactly one loop variable, one cond input,
one body input and one body output per intermediate tensor. -/
theorem accumulatePass_lengths (outerGid : Nat) :
    ∀ (ints : List Tensor) (a : LoopAssembly),
      (accumulatePass outerGid a ints).loopVars.length = a.loopVars.length + ints.length ∧
      (accumulatePass outerGid a ints).condGraph.inputs.length =
        a.condGraph.inputs.length + ints.length ∧
      (accumulatePass outerGid a ints).bodyGraph.inputs.length =
        a.bodyGraph.inputs.length + ints.length ∧
      (accumulatePass outerGid a ints).bodyGraph.outputs.length =
        a.bodyGraph.outputs.length + ints.length
  | [], a => by simp [accumulatePass]
  | i :: ints, a => by
    have ih := accumulatePass_lengths outerGid ints (addAccumulator outerGid a i)
    have hstep : (addAccumulator outerGid a i).loopVars.length = a.loopVars.length + 1 ∧
        (addAccumulator outerGid a i).condGraph.inputs.length =
          a.condGraph.inputs.length + 1 ∧
        (addAccumulator outerGid a i).bodyGraph.inputs.length =
          a.bodyGraph.inputs.length + 1 ∧
        (addAccumulator outerGid a i).bodyGraph.outputs.length =
          a.bodyGraph.outputs.length + 1 := by
      simp [addAccumulator]
    simp only [accumulatePass, List.foldl_cons, List.length_cons] at ih ⊢
    omega

/-- The accumulation loop only appends operations to the body graph. -/
theorem accumulatePass_ops_mono (outerGid : Nat) :
    ∀ (ints : List Tensor) (a : LoopAssembly) (op : Op), op ∈ a.bodyGraph.ops →
      op ∈ (accumulatePass outerGid a ints).bodyGraph.ops
  | [], a, op, hmem => hmem
  | i :: ints, a, op, hmem => by
    simp only [accumulatePass, List.foldl_cons]
    exact accumulatePass_ops_mono outerGid ints (addAccumulator outerGid a i) op
      (by simp [addAccumulator, hmem])

/-- Every intermediate handed to the accumulation loop ends up pushed onto some
TensorList by a push-back op of the resulting body graph. -/
theorem accumulatePass_pushback (outerGid : Nat) :
    ∀ (ints : List Tensor) (a : LoopAssembly) (t : Tensor), t ∈ ints →
      ∃ op ∈ (accumulatePass outerGid a ints).bodyGraph.ops,
        op.opType = "TensorListPushBack" ∧ op.opInputs.get? 1 = some t
  | [], _, t, hmem => by cases hmem
  | i :: ints, a, t, hmem => by
    simp only [accumulatePass, List.foldl_cons]
    rcases List.mem_cons.mp hmem with he | hm
    · subst he
      refine ⟨{ opType := "TensorListPushBack",
                opInputs := [⟨a.nextId + 2, a.bodyGraph.gid, .variant⟩, t],
                opOutputs := [⟨a.nextId + 3, a.bodyGraph.gid, .variant⟩] }, ?_, rfl, rfl⟩
      exact accumulatePass_ops_mono outerGid ints (addAccumulator outerGid a t) _
        (by simp [addAccumulator])
    · exact accumulatePass_pushback outerGid ints (addAccumulator outerGid a i) t hm

/-- Claim C6: the accumulation manager's candidates are exactly the outputs of
the body graph's non-Identity operations other than the loop counter input,
resource-typed tensors, and tensors that already have a detectable accumulator;
and the accumulation loop then appends exactly one fresh accumulator per
candidate to the loop variables, the cond inputs, the body inputs and the body
outputs, pushing each candidate onto its own TensorList. -/
theorem c6_accumulation_policy (g : FuncGraph) (c : Tensor) (r : List Tensor)
    (l : List Tensor) (hin : g.inputs = c :: r) (hok : get_intermediates g = .ok l) :
    (∀ t, t ∈ l ↔
      ((∃ op ∈ g.ops, op.opType ≠ "Identity" ∧ t ∈ op.opOutputs) ∧
        t ≠ c ∧ t.dtype ≠ DType.resource ∧ get_accumulator g t = .ok none)) ∧
    (∀ (outerGid : Nat) (lv : List Tensor) (condG : FuncGraph) (n : Nat),
      (accumulatePass outerGid ⟨lv, condG, g, n⟩ l).loopVars.length = lv.length + l.length ∧
      (accumulatePass outerGid ⟨lv, condG, g, n⟩ l).condGraph.inputs.length =
        condG.inputs.length + l.length ∧
      (accumulatePass outerGid ⟨lv, condG, g, n⟩ l).bodyGraph.inputs.length =
        g.inputs.length + l.length ∧
      (accumulatePass outerGid ⟨lv, condG, g, n⟩ l).bodyGraph.outputs.length =
        g.outputs.length + l.length ∧
      (∀ t ∈ l, ∃ op ∈ (accumulatePass outerGid ⟨lv, condG, g, n⟩ l).bodyGraph.ops,
        op.opType = "TensorListPushBack" ∧ op.opInputs.get? 1 = some t)) := by
  constructor
  · intro t
    constructor
    · intro hmem
      have hm := intermediatesOfOps_mem g g.ops l hok t hmem
      rcases hm.2.1 with ⟨c', r', hin', htc⟩
      rw [hin] at hin'
      injection hin' with hc hr
      exact ⟨hm.1, hc ▸ htc, hm.2.2⟩
    · intro ⟨⟨op, hop, hid, hto⟩, htc, htd, hta⟩
      exact intermediatesOfOps_complete g c r hin g.ops l hok t op hop hid hto htc htd hta
  · intro outerGid lv condG n
    have hl := accumulatePass_lengths outerGid l ⟨lv, condG, g, n⟩
    exact ⟨hl.1, hl.2.1, hl.2.2.1, hl.2.2.2,
      fun t hmem => accumulatePass_pushback outerGid l ⟨lv, condG, g, n⟩ t hmem⟩

/-- Claim C7, amended half: a candidate that already has a detectable
accumulator is never collected again, so no duplicate accumulator is created
for it. -/
theorem c7_no_duplicate_accumulator (g : FuncGraph) (t a : Tensor) (l : List Tensor)
    (hacc : get_accumulator g t = .ok (some a)) (hok : get_intermediates g = .ok l) :
    t ∉ l := by
  intro hmem
  have hm := intermediatesOfOps_mem g g.ops l hok t hmem
  rw [hacc] at hm
  exact Option.noConfusion (Except.ok.inj hm.2.2.2)

/-- Concrete instance for C6: the loop counter input of a two-variable body. -/
def g6c : Tensor := ⟨0, 3, .float32⟩

/-- Concrete instance for C6: the data input. -/
def g6x : Tensor := ⟨1, 3, .float32⟩

/-- Concrete instance for C6: the updated counter. -/
def g6c1 : Tensor := ⟨2, 3, .float32⟩

/-- Concrete instance for C6: the updated data value. -/
def g6x1 : Tensor := ⟨3, 3, .float32⟩

/-- Concrete instance for C6: a body graph with two loop variables. -/
def G6 : FuncGraph :=
  { gid := 3
    ops := [⟨"Placeholder", [], [g6c]⟩, ⟨"Placeholder", [], [g6x]⟩,
            ⟨"Add", [g6c], [g6c1]⟩, ⟨"Mul", [g6x], [g6x1]⟩]
    inputs := [g6c, g6x]
    outputs := [g6c1, g6x1]
    captures := [] }

/-- Concrete instance for C6: an empty cond graph. -/
def cond6 : FuncGraph := ⟨4, [], [], [], []⟩

/-- Witness for C6 at the concrete body `G6`: its candidates are the data
input, the updated counter and the updated data value, and the accumulation
loop appends exactly three accumulator outputs. -/
theorem c6_witness :
    G6.inputs = g6c :: [g6x] ∧
    get_intermediates G6 = .ok [g6x, g6c1, g6x1] ∧
    (accumulatePass 0 ⟨[g6c, g6x], cond6, G6, 50⟩ [g6x, g6c1, g6x1]).bodyGraph.outputs.length =
      G6.outputs.length + [g6x, g6c1, g6x1].length := by
  have h := c6_accumulation_policy G6 g6c [g6x] [g6x, g6c1, g6x1] rfl rfl
  exact ⟨rfl, rfl, (h.2 0 [g6c, g6x] cond6 50).2.2.2.1⟩

/-- Concrete instance for C7: the counter input. -/
def g7c : Tensor := ⟨0, 5, .float32⟩

/-- Concrete instance for C7: the data input. -/
def g7x : Tensor := ⟨1, 5, .float32⟩

/-- Concrete instance for C7: the accumulator TensorList input. -/
def g7tl : Tensor := ⟨2, 5, .variant⟩

/-- Concrete instance for C7: the already-accumulated candidate. -/
def g7xp : Tensor := ⟨3, 5, .float32⟩

/-- Concrete instance for C7: the pushed accumulator output. -/
def g7app : Tensor := ⟨4, 5, .variant⟩

/-- Concrete instance for C7: the updated counter. -/
def g7c1 : Tensor := ⟨5, 5, .float32⟩

/-- Concrete instance for C7: a body graph in which candidate `g7xp` already
has an accumulator (`g7tl` is input 2, its pushed version `g7app` output 2). -/
def G7 : FuncGraph :=
  { gid := 5
    ops := [⟨"Placeholder", [], [g7c]⟩, ⟨"Placeholder", [], [g7x]⟩, ⟨"Placeholder", [], [g7tl]⟩,
            ⟨"Add", [g7c], [g7c1]⟩, ⟨"Mul", [g7x], [g7xp]⟩,
            ⟨"TensorListPushBack", [g7tl, g7xp], [g7app]⟩]
    inputs := [g7c, g7x, g7tl]
    outputs := [g7c1, g7xp, g7app]
    captures := [] }

/-- Concrete instance for C7: an empty cond graph. -/
def cond7 : FuncGraph := ⟨6, [], [], [], []⟩

/-- Counterexample for C7 as stated: `G7` is a body in which a candidate
(`g7xp`) already has a detectable accumulator, yet one run of the accumulation
manager changes the structural output count from 3 to 6 — the raw loop-variable
placeholder, the updated counter and, notably, the accumulator push-back's own
output list are all still candidates and receive fresh accumulators. -/
theorem c7_counterexample :
    get_accumulator G7 g7xp = .ok (some g7app) ∧
    get_intermediates G7 = .ok [g7x, g7c1, g7app] ∧
    (accumulatePass 0 ⟨[g7c, g7x, g7tl], cond7, G7, 100⟩
        [g7x, g7c1, g7app]).bodyGraph.outputs.length = 6 ∧
    G7.outputs.length = 3 :=
  ⟨rfl, rfl, rfl, rfl⟩

/-- Witness for C7 (amended) at the concrete body `G7`: the already-accumulated
candidate `g7xp` is not collected again. -/
theorem c7_witness :
    get_accumulator G7 g7xp = .ok (some g7app) ∧ g7xp ∉ [g7x, g7c1, g7app] :=
  ⟨rfl, c7_no_duplicate_accumulator G7 g7xp g7app [g7x, g7c1, g7app] rfl rfl⟩

/-- The padded gradient list has one entry per (forced) incoming gradient. -/
theorem nonePaddedGo_length (outputs : List Tensor) :
    ∀ (gs : List (Option Tensor)) (i : Nat), (nonePaddedGo outputs gs i).length = gs.length
  | [], _ => rfl
  | none :: gs, i => by
    simp only [nonePaddedGo, List.length_cons, nonePaddedGo_length outputs gs i]
  | some x :: gs, i => by
    simp only [nonePaddedGo, List.length_cons, nonePaddedGo_length outputs gs (i + 1)]

/-- The padded gradient list is None exactly where the (forced) incoming
gradient list is None. -/
theorem nonePaddedGo_none_iff (outputs : List Tensor) :
    ∀ (gs : List (Option Tensor)) (i j : Nat),
      (nonePaddedGo outputs gs i).get? j = some none ↔ gs.get? j = some none
  | [], i, j => by simp [nonePaddedGo]
  | none :: gs, i, j => by
    cases j with
    | zero => simp [nonePaddedGo]
    | succ j =>
      simp only [nonePaddedGo, List.get?_cons_succ]
      exact nonePaddedGo_none_iff outputs gs i j
  | some x :: gs, i, j => by
    cases j with
    | zero => simp [nonePaddedGo]
    | succ j =>
      simp only [nonePaddedGo, List.get?_cons_succ]
      exact nonePaddedGo_none_iff outputs gs (i + 1) j

/-- The present entries of the padded gradient list are exactly the backward
While op's outputs from index `i` on, in order. -/
theorem nonePaddedGo_filterMap (outputs : List Tensor) :
    ∀ (gs : List (Option Tensor)) (i : Nat), i + countSome gs ≤ outputs.length →
      (nonePaddedGo outputs gs i).filterMap id = (outputs.drop i).take (countSome gs)
  | [], i, h => by simp [nonePaddedGo, countSome]
  | none :: gs, i, h => by
    have hc : countSome (none :: gs) = countSome gs := by simp [countSome]
    rw [hc]
    rw [hc] at h
    simp only [nonePaddedGo, List.filterMap_cons]
    exact nonePaddedGo_filterMap outputs gs i h
  | some x :: gs, i, h => by
    have hc : countSome (some x :: gs) = countSome gs + 1 := by simp [countSome]
    rw [hc]
    rw [hc] at h
    have hi : i < outputs.length := by omega
    simp only [nonePaddedGo, List.filterMap_cons, id]
    rw [nonePaddedGo_filterMap outputs gs (i + 1) (by omega)]
    rw [List.getD_eq_getElem outputs dummyTensor hi]
    rw [List.drop_eq_getElem_cons hi, List.take_succ_cons]

/-- Claim C3, amended: when every trainable non-resource forward output has an
incoming gradient, the gradient entry point returns one gradient per forward
output (and the While op has as many inputs as outputs), with None exactly at
the indices where the incoming gradient — after TensorArray-handle gradients
have been forced to None — is absent, and with the present gradients being the
backward While op's outputs from index 2 on, in the original order. -/
theorem c3_gradient_padding (g : FuncGraph) (whileOp : Op) (grads : List (Option Tensor))
    (backOutputs : List Tensor) (res : List (Option Tensor))
    (hok : whileGradOutputs g whileOp grads backOutputs = .ok res)
    (hglen : grads.length = whileOp.opOutputs.length)
    (hblen : 2 + countSome (forceTAGrads g whileOp grads) ≤ backOutputs.length) :
    res.length = grads.length ∧
    (∀ j, res.get? j = some none ↔ (forceTAGrads g whileOp grads).get? j = some none) ∧
    res.filterMap id =
      (backOutputs.drop 2).take (countSome (forceTAGrads g whileOp grads)) := by
  simp only [whileGradOutputs] at hok
  split at hok
  · exact Except.noConfusion hok
  · injection hok with hok
    subst hok
    refine ⟨?_, ?_, ?_⟩
    · rw [nonePadded, nonePaddedGo_length]
      simp only [forceTAGrads, List.length_map, List.length_zip, hglen, Nat.min_self]
    · intro j
      exact nonePaddedGo_none_iff backOutputs (forceTAGrads g whileOp grads) 2 j
    · exact nonePaddedGo_filterMap backOutputs (forceTAGrads g whileOp grads) 2 hblen

/-- Concrete instance for C3 and C10: a TensorArray handle in the outer
graph. -/
def taH : Tensor := ⟨10, 0, .resource⟩

/-- Concrete instance for C3 and C10: the forward loop's counter input. -/
def taCi : Tensor := ⟨11, 0, .float32⟩

/-- Concrete instance for C3 and C10: the forward loop's counter output. -/
def taCo : Tensor := ⟨12, 0, .float32⟩

/-- Concrete instance for C3 and C10: the forward loop's resource output,
which resolves to the captured TensorArray handle. -/
def taHo : Tensor := ⟨13, 0, .resource⟩

/-- Concrete instance for C3 and C10: the forward While op, carrying the
TensorArray handle as a loop-invariant input. -/
def taWhileOp : Op := ⟨"While", [taCi, taH], [taCo, taHo]⟩

/-- Concrete instance for C3 and C10: the outer graph holding the
TensorArray-creating op and the forward While op. -/
def GTA : FuncGraph :=
  { gid := 0
    ops := [⟨"TensorArrayV3", [], [taH]⟩, taWhileOp]
    inputs := []
    outputs := []
    captures := [] }

/-- Concrete instance for C3 and C10: the incoming gradient for the counter
output. -/
def taGc : Tensor := ⟨20, 0, .float32⟩

/-- Concrete instance for C3 and C10: the caller-supplied incoming gradient
for the TensorArray-handle output. -/
def taGh : Tensor := ⟨21, 0, .float32⟩

/-- Concrete instance for C3 and C10: backward While op output 0. -/
def taB0 : Tensor := ⟨30, 0, .float32⟩

/-- Concrete instance for C3 and C10: backward While op output 1. -/
def taB1 : Tensor := ⟨31, 0, .float32⟩

/-- Concrete instance for C3 and C10: backward While op output 2. -/
def taB2 : Tensor := ⟨32, 0, .float32⟩

/-- Counterexample for C3 as stated: the incoming gradient for forward output 1
(a TensorArray handle) is present, yet the returned gradient at index 1 is
None — the entry point forces TensorArray-handle gradients to None before
padding, so "None exactly where the incoming gradient was absent" fails. -/
theorem c3_counterexample :
    [some taGc, some taGh].get? 1 = some (some taGh) ∧
    whileGradOutputs GTA taWhileOp [some taGc, some taGh] [taB0, taB1, taB2] =
      .ok [some taB2, none] :=
  ⟨rfl, rfl⟩

/-- Witness for C3 (amended) at the concrete TensorArray instance. -/
theorem c3_witness :
    whileGradOutputs GTA taWhileOp [some taGc, some taGh] [taB0, taB1, taB2] =
      .ok [some taB2, none] ∧
    [some taB2, none].length = [some taGc, some taGh].length ∧
    ([some taB2, none].get? 1 = some none ↔
      (forceTAGrads GTA taWhileOp [some taGc, some taGh]).get? 1 = some none) ∧
    [some taB2, none].filterMap id =
      ([taB0, taB1, taB2].drop 2).take
        (countSome (forceTAGrads GTA taWhileOp [some taGc, some taGh])) := by
  have h := c3_gradient_padding GTA taWhileOp [some taGc, some taGh] [taB0, taB1, taB2]
    [some taB2, none] rfl rfl (by decide)
  exact ⟨rfl, h.1, h.2.1 1, h.2.2⟩

/-- Claim C10: for a forward output that is a TensorArray handle, the gradient
entry point forces its incoming gradient to None before validation, and the
returned gradient at that index is always None, even when a gradient was
supplied. -/
theorem c10_tensor_array_grad_is_none (g : FuncGraph) (whileOp : Op)
    (grads : List (Option Tensor)) (i : Nat) (out : Tensor)
    (hout : whileOp.opOutputs.get? i = some out)
    (hta : is_tensor_array_handle g out = true)
    (hi : i < grads.length) :
    (forceTAGrads g whileOp grads).get? i = some none ∧
    (∀ backOutputs res, whileGradOutputs g whileOp grads backOutputs = .ok res →
      res.get? i = some none) := by
  have hforced : (forceTAGrads g whileOp grads).get? i = some none := by
    have hv : grads.get? i = some (grads.get ⟨i, hi⟩) := List.get?_eq_get hi
    have hzip : (grads.zip whileOp.opOutputs).get? i = some (grads.get ⟨i, hi⟩, out) :=
      (List.get?_zip_eq_some _ _ _ i).mpr ⟨hv, hout⟩
    simp only [forceTAGrads, List.get?_map, hzip, Option.map_some']
    simp [hta]
  refine ⟨hforced, fun backOutputs res hok => ?_⟩
  simp only [whileGradOutputs] at hok
  split at hok
  · exact Except.noConfusion hok
  · injection hok with hok
    subst hok
    exact (nonePaddedGo_none_iff backOutputs _ 2 i).mpr hforced

/-- Witness for C10 at the concrete TensorArray instance: the supplied gradient
for the handle output is forced to None and the returned gradient there is
None. -/
theorem c10_witness :
    taWhileOp.opOutputs.get? 1 = some taHo ∧
    is_tensor_array_handle GTA taHo = true ∧
    (forceTAGrads GTA taWhileOp [some taGc, some taGh]).get? 1 = some none ∧
    [some taB2, none].get? 1 = some none := by
  have h := c10_tensor_array_grad_is_none GTA taWhileOp [some taGc, some taGh] 1 taHo
    rfl rfl (by decide)
  exact ⟨rfl, rfl, h.1, h.2 [taB0, taB1, taB2] [some taB2, none] rfl⟩

/-- Lookup in a concatenation when the first dict misses the key. -/
theorem lookupT_append_none (k : Tensor) :
    ∀ (l m : List (Tensor × Tensor)), lookupT l k = none →
      lookupT (l ++ m) k = lookupT m k
  | [], m, _ => rfl
  | (a, b) :: rest, m, h => by
    by_cases hak : a = k
    · rw [lookupT, if_pos hak] at h
      exact Option.noConfusion h
    · rw [lookupT, if_neg hak] at h
      rw [List.cons_append, lookupT, if_neg hak]
      exact lookupT_append_none k rest m h

/-- Lookup in a concatenation when the first dict has the key. -/
theorem lookupT_append_some (k v : Tensor) :
    ∀ (l m : List (Tensor × Tensor)), lookupT l k = some v →
      lookupT (l ++ m) k = some v
  | [], m, h => Option.noConfusion h
  | (a, b) :: rest, m, h => by
    by_cases hak : a = k
    · rw [lookupT, if_pos hak] at h
      rw [List.cons_append, lookupT, if_pos hak]
      exact h
    · rw [lookupT, if_neg hak] at h
      rw [List.cons_append, lookupT, if_neg hak]
      exact lookupT_append_some k v rest m h

/-- Lookup after a dict assignment finds the assigned value. -/
theorem lookupT_updateT_self : ∀ (l : List (Tensor × Tensor)) (k v : Tensor),
    lookupT (updateT l k v) k = some v
  | [], k, v => by simp [updateT, lookupT]
  | (a, b) :: rest, k, v => by
    by_cases hak : a = k
    · rw [updateT, if_pos hak, lookupT, if_pos rfl]
    · rw [updateT, if_neg hak, lookupT, if_neg hak]
      exact lookupT_updateT_self rest k v

/-- Lookup at a different key is unchanged by a dict assignment. -/
theorem lookupT_updateT_other : ∀ (l : List (Tensor × Tensor)) (k v k' : Tensor),
    ¬ k = k' → lookupT (updateT l k v) k' = lookupT l k'
  | [], k, v, k', hk => by simp [updateT, lookupT, hk]
  | (a, b) :: rest, k, v, k', hk => by
    by_cases hak : a = k
    · rw [updateT, if_pos hak, lookupT, if_neg hk, lookupT, if_neg (hak ▸ hk)]
    · rw [updateT, if_neg hak, lookupT, lookupT]
      by_cases hak' : a = k'
      · rw [if_pos hak', if_pos hak']
      · rw [if_neg hak', if_neg hak']
        exact lookupT_updateT_other rest k v k' hk

/-- The base capture hook returns the cached placeholder for an
already-captured tensor and leaves the state unchanged. -/
theorem baseCaptureHelper_hit (gid : Nat) (st : GradState) (w ph : Tensor)
    (h : lookupT st.captures w = some ph) :
    baseCaptureHelper gid st w = (ph, st) := by
  simp only [baseCaptureHelper, h]

/-- The base capture hook records the captured tensor's placeholder. -/
theorem baseCaptureHelper_lookup (gid : Nat) (st : GradState) (w : Tensor) :
    lookupT (baseCaptureHelper gid st w).2.captures w =
      some (baseCaptureHelper gid st w).1 := by
  unfold baseCaptureHelper
  cases h : lookupT st.captures w with
  | some ph => simp [h]
  | none =>
    simp only [h]
    rw [lookupT_append_none w st.captures _ h]
    simp [lookupT]

/-- The base capture hook changes none of the resolver dicts and creates no
pop operation. -/
theorem baseCaptureHelper_preserves (gid : Nat) (st : GradState) (w : Tensor) :
    (baseCaptureHelper gid st w).2.indirect_captures = st.indirect_captures ∧
    (baseCaptureHelper gid st w).2.inner_to_outer_tensor = st.inner_to_outer_tensor ∧
    (baseCaptureHelper gid st w).2.popped_tensor_lists = st.popped_tensor_lists ∧
    popCount (baseCaptureHelper gid st w).2 = popCount st := by
  unfold baseCaptureHelper
  cases h : lookupT st.captures w with
  | some ph => simp [h]
  | none =>
    refine ⟨by simp [h], by simp [h], by simp [h], ?_⟩
    simp [h, popCount, List.filter_append, List.filter]

/-- Claim C9: within one backward sub-program construction each forward value
is resolved at most once: a first (non-resource, previously unresolved)
successful resolution creates exactly one TensorListPopBack operation, and a
repeated reference to the same forward value returns the identical cached
popped value with the construction state unchanged — in particular it does not
pop a second time. -/
theorem c9_resolution_cached (env : ForwardEnv) (st : GradState) (t c : Tensor)
    (st' : GradState)
    (hg : t.graphId = env.forwardGraph.gid)
    (hres : (skipIdentity env env.forwardGraph.ops.length t).dtype ≠ DType.resource)
    (hfresh : lookupT st.indirect_captures
      (skipIdentity env env.forwardGraph.ops.length t) = none)
    (hok : capture_helper env st t = .ok (c, st')) :
    popCount st' = popCount st + 1 ∧
    capture_helper env st' t = .ok (c, st') := by
  unfold capture_helper at hok
  rw [if_neg (by simp [hg])] at hok
  unfold capture_forward at hok
  split at hok
  · rename_i c' hsome
    rw [hfresh] at hsome
    exact Option.noConfusion hsome
  · rw [if_neg hres] at hok
    unfold captureThroughAccumulator at hok
    split at hok
    · exact Except.noConfusion hok
    · rename_i hinner
      split at hok
      · exact Except.noConfusion hok
      · exact Except.noConfusion hok
      · rename_i accumulator hacc
        split at hok
        · exact Except.noConfusion hok
        · rename_i hgacc
          split at hok
          · exact Except.noConfusion hok
          · rename_i accOuter haccO
            split at hok
            · exact Except.noConfusion hok
            · rename_i houter
              simp only [] at hok
              injection hok with hok
              injection hok with hc hst
              subst hc
              subst hst
              set ts := skipIdentity env env.forwardGraph.ops.length t with hts
              have hpres := baseCaptureHelper_preserves env.gradGid ({ st with inner_to_outer_tensor := updateT st.inner_to_outer_tensor ts accOuter }) accOuter
              have hcapl := baseCaptureHelper_lookup env.gradGid ({ st with inner_to_outer_tensor := updateT st.inner_to_outer_tensor ts accOuter }) accOuter
              set B := baseCaptureHelper env.gradGid ({ st with inner_to_outer_tensor := updateT st.inner_to_outer_tensor ts accOuter }) accOuter with hB
              constructor
              · have h4 := hpres.2.2.2
                simp only [popCount] at h4 ⊢
                simp [List.filter_append, h4]
              · have hinner1 : lookupT B.2.inner_to_outer_tensor ts = some accOuter := by
                  have h5 := hpres.2.1
                  simp only [] at h5
                  rw [h5]
                  exact lookupT_updateT_self _ _ _
                unfold capture_helper
                rw [if_neg (by simp [hg])]
                rw [← hts]
                unfold capture_forward
                simp only [lookupT_updateT_self, hinner1, hcapl, Option.isNone_some,
                  Bool.false_eq_true, if_false]
                rw [baseCaptureHelper_hit env.gradGid ({ captures := B.2.captures, gradInputs := B.2.gradInputs, indirect_captures := updateT B.2.indirect_captures ts ⟨B.2.nextId + 1, env.gradGid, ts.dtype⟩, inner_to_outer_tensor := B.2.inner_to_outer_tensor, popped_tensor_lists := updateT B.2.popped_tensor_lists B.1 ⟨B.2.nextId, env.gradGid, DType.variant⟩, gradOps := B.2.gradOps ++ [{ opType := "TensorListPopBack", opInputs := [B.1], opOutputs := [⟨B.2.nextId, env.gradGid, DType.variant⟩, ⟨B.2.nextId + 1, env.gradGid, ts.dtype⟩] }], nextId := B.2.nextId + 2 } : GradState) accOuter B.1 hcapl]

/-- Python's `list.index` followed by indexing returns the element itself. -/
theorem get_indexOfT : ∀ (l : List Tensor) (t : Tensor), t ∈ l →
    l.get? (indexOfT l t) = some t
  | [], t, h => absurd h (List.not_mem_nil t)
  | x :: xs, t, h => by
    by_cases hxt : x = t
    · subst hxt
      rw [indexOfT, if_pos rfl]
      rfl
    · rw [indexOfT, if_neg hxt, List.get?_cons_succ]
      rcases List.mem_cons.mp h with he | hm
      · exact absurd he.symm hxt
      · exact get_indexOfT xs t hm

/-- Claim C8: when the backward sub-program captures a resource-typed value of
the forward body, the value must be a loop invariant of the forward loop: a
resource that is neither a loop input nor a nested While op's output is a
fatal "creates a resource in its body" error; a loop input whose same-index
output differs is a fatal loop-invariant assertion failure; and a genuine loop
invariant is resolved to the forward While operator's own input at that index,
captured (whitelisted) as an extra placeholder input of the backward graph,
with no accumulator pop involved. -/
theorem c8_resource_capture (env : ForwardEnv) (st : GradState) (t : Tensor)
    (hg : t.graphId = env.forwardGraph.gid)
    (hskip : skipIdentity env env.forwardGraph.ops.length t = t)
    (hfresh : lookupT st.indirect_captures t = none)
    (hdtype : t.dtype = DType.resource) :
    ((t ∉ env.forwardGraph.inputs) →
      (∀ op, producer env.forwardGraph t = some op → op.opType ≠ "While") →
      capture_helper env st t =
        .error ("Taking gradient of a while loop which creates a resource in its body is not supported: " ++ toString t.tid)) ∧
    (∀ w, t ∈ env.forwardGraph.inputs →
      env.forwardGraph.outputs.get? (indexOfT env.forwardGraph.inputs t) = some t →
      env.whileOp.opInputs.get? (indexOfT env.forwardGraph.inputs t) = some w →
      w.graphId ≠ env.gradGid →
      ∃ ph st', capture_helper env st t = .ok (ph, st') ∧
        lookupT st'.indirect_captures t = some ph ∧
        lookupT st'.inner_to_outer_tensor t = some w ∧
        lookupT st'.captures w = some ph ∧
        popCount st' = popCount st) ∧
    (∀ u, t ∈ env.forwardGraph.inputs →
      env.forwardGraph.outputs.get? (indexOfT env.forwardGraph.inputs t) = some u →
      u ≠ t →
      capture_helper env st t =
        .error "AssertionError: Resource tensors must be loop invariants.") := by
  refine ⟨?_, ?_, ?_⟩
  · intro hmem hwhile
    unfold capture_helper
    rw [if_neg (by simp [hg])]
    rw [hskip]
    unfold capture_forward
    simp only [hfresh]
    rw [if_pos hdtype]
    unfold captureResource resourceIndex
    rw [if_neg hmem]
    cases hprod : producer env.forwardGraph t with
    | none => simp [hprod]
    | some op =>
      simp only [hprod]
      rw [if_neg (hwhile op hprod)]
  · intro w hmem hinv hw hwg
    unfold capture_helper
    rw [if_neg (by simp [hg])]
    rw [hskip]
    unfold capture_forward
    simp only [hfresh]
    rw [if_pos hdtype]
    unfold captureResource resourceIndex
    rw [if_pos hmem]
    simp only []
    unfold captureResourceAt
    simp only [get_indexOfT _ _ hmem, hinv]
    rw [if_neg (by simp)]
    simp only [hw]
    unfold whitelistedCapture
    rw [if_neg hwg]
    set B := baseCaptureHelper env.gradGid ({ st with inner_to_outer_tensor := updateT st.inner_to_outer_tensor t w }) w with hB
    have hpres := baseCaptureHelper_preserves env.gradGid ({ st with inner_to_outer_tensor := updateT st.inner_to_outer_tensor t w }) w
    have hcapl := baseCaptureHelper_lookup env.gradGid ({ st with inner_to_outer_tensor := updateT st.inner_to_outer_tensor t w }) w
    refine ⟨B.1, { B.2 with indirect_captures := updateT B.2.indirect_captures t B.1 }, ?_, ?_, ?_, ?_, ?_⟩
    · simp only []
    · exact lookupT_updateT_self _ _ _
    · have h5 := hpres.2.1
      simp only [] at h5
      rw [h5]
      exact lookupT_updateT_self _ _ _
    · exact hcapl
    · have h4 := hpres.2.2.2
      simp only [popCount] at h4 ⊢
      exact h4
  · intro u hmem houtp hne
    unfold capture_helper
    rw [if_neg (by simp [hg])]
    rw [hskip]
    unfold capture_forward
    simp only [hfresh]
    rw [if_pos hdtype]
    unfold captureResource resourceIndex
    rw [if_pos hmem]
    simp only []
    unfold captureResourceAt
    simp only [get_indexOfT _ _ hmem, houtp]
    rw [if_pos (fun he => hne he.symm)]

/-- Concrete instance for C9: the forward body's counter input. -/
def f9cnt : Tensor := ⟨40, 1, .float32⟩

/-- Concrete instance for C9: the forward body's data input. -/
def f9x : Tensor := ⟨41, 1, .float32⟩

/-- Concrete instance for C9: the forward body's accumulator input. -/
def f9tl : Tensor := ⟨42, 1, .variant⟩

/-- Concrete instance for C9: the updated counter. -/
def f9cnt1 : Tensor := ⟨43, 1, .float32⟩

/-- Concrete instance for C9: the intermediate value, accumulated in `f9tl`. -/
def f9x2 : Tensor := ⟨44, 1, .float32⟩

/-- Concrete instance for C9: the pushed accumulator list. -/
def f9app : Tensor := ⟨45, 1, .variant⟩

/-- Concrete instance for C9: the forward body graph with an accumulated
intermediate. -/
def FG9 : FuncGraph :=
  { gid := 1
    ops := [⟨"Placeholder", [], [f9cnt]⟩, ⟨"Placeholder", [], [f9x]⟩, ⟨"Placeholder", [], [f9tl]⟩,
            ⟨"Add", [f9cnt], [f9cnt1]⟩, ⟨"Mul", [f9x], [f9x2]⟩,
            ⟨"TensorListPushBack", [f9tl, f9x2], [f9app]⟩]
    inputs := [f9cnt, f9x, f9tl]
    outputs := [f9cnt1, f9x2, f9app]
    captures := [] }

/-- Concrete instance for C9: the forward While op in the outer graph. -/
def fwdWhile9 : Op :=
  ⟨"While", [⟨50, 0, .float32⟩, ⟨51, 0, .float32⟩, ⟨52, 0, .variant⟩],
    [⟨53, 0, .float32⟩, ⟨54, 0, .float32⟩, ⟨55, 0, .variant⟩]⟩

/-- Concrete instance for C9: the resolver context. -/
def env9 : ForwardEnv := ⟨FG9, fwdWhile9, 0, 2⟩

/-- Concrete instance for C9: the initial backward-graph state. -/
def st9 : GradState := ⟨[], [], [], [], [], [], 100⟩

/-- Concrete instance for C9: the popped value returned by the first
resolution of `f9x2`. -/
def c9res : Tensor := ⟨102, 2, .float32⟩

/-- Concrete instance for C9: the state after the first resolution of
`f9x2` — the accumulator's While-op output is captured, one pop op exists, and
the popped value is cached. -/
def st9p : GradState :=
  { captures := [(⟨55, 0, .variant⟩, ⟨100, 2, .variant⟩)]
    gradInputs := [⟨100, 2, .variant⟩]
    indirect_captures := [(f9x2, c9res)]
    inner_to_outer_tensor := [(f9x2, ⟨55, 0, .variant⟩)]
    popped_tensor_lists := [(⟨100, 2, .variant⟩, ⟨101, 2, .variant⟩)]
    gradOps := [⟨"Placeholder", [], [⟨100, 2, .variant⟩]⟩,
                ⟨"TensorListPopBack", [⟨100, 2, .variant⟩], [⟨101, 2, .variant⟩, c9res]⟩]
    nextId := 103 }

/-- Witness for C9 at the concrete instance: the first resolution pops once,
the second returns the identical cached value with the state unchanged. -/
theorem c9_witness :
    capture_helper env9 st9 f9x2 = .ok (c9res, st9p) ∧
    popCount st9p = popCount st9 + 1 ∧
    capture_helper env9 st9p f9x2 = .ok (c9res, st9p) := by
  have h := c9_resolution_cached env9 st9 f9x2 c9res st9p rfl (by decide) rfl rfl
  exact ⟨rfl, h.1, h.2⟩

/-- Concrete instance for C8: the forward body's counter input. -/
def f8cnt : Tensor := ⟨59, 1, .float32⟩

/-- Concrete instance for C8: a resource produced inside the loop body. -/
def r8bad : Tensor := ⟨60, 1, .resource⟩

/-- Concrete instance for C8: a loop-invariant resource input. -/
def r8 : Tensor := ⟨61, 1, .resource⟩

/-- Concrete instance for C8: a resource input that is not a loop invariant. -/
def r8c : Tensor := ⟨63, 1, .resource⟩

/-- Concrete instance for C8: the updated counter. -/
def f8cnt1 : Tensor := ⟨65, 1, .float32⟩

/-- Concrete instance for C8: the non-invariant value at `r8c`'s output
index. -/
def f8y : Tensor := ⟨64, 1, .float32⟩

/-- Concrete instance for C8: the forward While op's resource input matching
`r8`. -/
def w8r : Tensor := ⟨62, 0, .resource⟩

/-- Concrete instance for C8: the forward body graph. -/
def FG8 : FuncGraph :=
  { gid := 1
    ops := [⟨"Placeholder", [], [f8cnt]⟩, ⟨"Placeholder", [], [r8]⟩, ⟨"Placeholder", [], [r8c]⟩,
            ⟨"VarHandleOp", [], [r8bad]⟩, ⟨"Add", [f8cnt], [f8cnt1]⟩, ⟨"Mul", [f8cnt], [f8y]⟩]
    inputs := [f8cnt, r8, r8c]
    outputs := [f8cnt1, r8, f8y]
    captures := [] }

/-- Concrete instance for C8: the forward While op in the outer graph. -/
def fwdWhile8 : Op :=
  ⟨"While", [⟨66, 0, .float32⟩, w8r, ⟨67, 0, .resource⟩],
    [⟨68, 0, .float32⟩, ⟨69, 0, .resource⟩, ⟨70, 0, .resource⟩]⟩

/-- Concrete instance for C8: the resolver context. -/
def env8 : ForwardEnv := ⟨FG8, fwdWhile8, 0, 2⟩

/-- Concrete instance for C8: the initial backward-graph state. -/
def st8 : GradState := ⟨[], [], [], [], [], [], 200⟩

/-- Witness for C8 at the concrete instances: the inside-created resource is a
fatal error, the loop-invariant resource resolves to the forward While op's
input, and the non-invariant resource input trips the invariant assertion. -/
theorem c8_witness :
    capture_helper env8 st8 r8bad =
      .error ("Taking gradient of a while loop which creates a resource in its body is not supported: " ++ toString r8bad.tid) ∧
    (∃ ph st', capture_helper env8 st8 r8 = .ok (ph, st') ∧
      lookupT st'.indirect_captures r8 = some ph ∧
      lookupT st'.inner_to_outer_tensor r8 = some w8r ∧
      lookupT st'.captures w8r = some ph ∧
      popCount st' = popCount st8) ∧
    capture_helper env8 st8 r8c =
      .error "AssertionError: Resource tensors must be loop invariants." := by
  refine ⟨?_, ?_, ?_⟩
  · refine (c8_resource_capture env8 st8 r8bad rfl (by decide) rfl rfl).1 (by decide) ?_
    intro op hop
    have heq : op = ⟨"VarHandleOp", [], [r8bad]⟩ := by
      rw [show producer env8.forwardGraph r8bad = some (⟨"VarHandleOp", [], [r8bad]⟩ : Op)
        from rfl] at hop
      exact (Option.some.inj hop).symm
    subst heq
    decide
  · exact (c8_resource_capture env8 st8 r8 rfl (by decide) rfl rfl).2.1 w8r (by decide)
      rfl rfl (by decide)
  · exact (c8_resource_capture env8 st8 r8c rfl (by decide) rfl rfl).2.2 f8y (by decide)
      rfl (by decide)

end WhileV2
